import Mathlib

/-!
Verification development for the invoice-processing pipeline.

The four core stages are shallowly embedded over explicit data:
- `LoggerAgent` (BlockExtractor): block segmentation and append-with-dedup
  into the tabular store (`logger_agent.py`);
- `MapperAgent` (CatalogMatcher): model-string normalization and exact-match
  catalog lookup (`mapper_agent.py`);
- `GSTFetcherAgent` (TieredRateResolver): cache/remote/fallback rate cascade
  (`gst_fetcher_agent.py`);
- `ReviewerAgent` (ReconciliationEngine): per-line amount check, taxable
  aggregation and expected-total comparison (`reviewer_agent.py`).

Modelling conventions: Python floats are modelled as rationals, `None` as
`Option.none` (cells use the `Value` type below), raising code as
`Option`/`Except`, and the external HTTP lookup as an explicit function
argument recording its parsed outcome.
-/

/-- Python whitespace set used by `str.strip`, `str.split()` and the regex
class `\s` (ASCII part). -/
def pySpace (c : Char) : Bool :=
  c = ' ' || c = '\t' || c = '\n' || c = '\r' || c = '\x0b' || c = '\x0c'

/-- Strip leading and trailing Python whitespace from a character list
(`str.strip()`). -/
def pyStripL (cs : List Char) : List Char :=
  ((cs.dropWhile pySpace).reverse.dropWhile pySpace).reverse

/-- Does the second list start with the first one (pattern match at the
head position)? -/
def leadsWith : List Char → List Char → Bool
  | [], _ => true
  | _ :: _, [] => false
  | p :: ps, c :: cs => p == c && leadsWith ps cs

/-- One rewriting pass of Python `str.replace(pat, repl)` (all occurrences,
left to right, non-overlapping); `fuel` bounds the recursion and is always
called with more fuel than characters. -/
def replaceFuel : Nat → List Char → List Char → List Char → List Char
  | 0, _, _, cs => cs
  | _ + 1, _, _, [] => []
  | fuel + 1, pat, repl, c :: cs =>
    if leadsWith pat (c :: cs) then
      repl ++ replaceFuel fuel pat repl (List.drop pat.length (c :: cs))
    else
      c :: replaceFuel fuel pat repl cs

/-- Python `s.replace(pat, repl)` for a non-empty pattern. -/
def replaceAll (s pat repl : String) : String :=
  if pat = "" then s
  else String.mk (replaceFuel (s.toList.length + 1) pat.toList repl.toList s.toList)

/-- Uppercase a string character-wise (Python `str.upper()` on ASCII data). -/
def myUpper (s : String) : String :=
  String.mk (s.toList.map Char.toUpper)

/-- Split a character list on runs of whitespace, dropping empty tokens
(Python `str.split()` with no argument); `acc` holds the current token
reversed. -/
def splitWsGo : List Char → List Char → List (List Char)
  | [], acc => if acc = [] then [] else [acc.reverse]
  | c :: cs, acc =>
    if pySpace c then
      if acc = [] then splitWsGo cs [] else acc.reverse :: splitWsGo cs []
    else splitWsGo cs (c :: acc)

/-- Value of a spreadsheet cell / dynamically typed Python scalar: `None`,
a number (floats modelled as rationals), or a string. -/
inductive Value where
  | vNone : Value
  | vNum : ℚ → Value
  | vStr : String → Value
deriving DecidableEq

open Value

/-- Python truthiness of a cell value (`None`, `0` and `""` are falsy). -/
def pyTruthy : Value → Bool
  | vNone => false
  | vNum q => q ≠ 0
  | vStr s => s ≠ ""

/-- Python `str(v)`. Faithful for `None`, strings and integer-valued
numbers (the only numeric case the pipeline feeds it). -/
def pyStrV : Value → String
  | vNone => "None"
  | vNum q => if q.den = 1 then toString q.num else toString q
  | vStr s => s

/-- Numeric value of a digit list read in base 10. -/
def digitsVal (ds : List Char) : ℕ :=
  ds.foldl (fun a c => 10 * a + (c.toNat - '0'.toNat)) 0

/-- Python `float(s)` on a plain decimal literal: optional surrounding
whitespace, optional sign, digits with at most one point, at least one
digit (scientific notation / inf / nan are out of the pipeline's data and
not modelled). -/
def parseDecimal (s : String) : Option ℚ :=
  let cs := pyStripL s.toList
  let signAndRest : ℚ × List Char :=
    match cs with
    | '-' :: t => (-1, t)
    | '+' :: t => (1, t)
    | _ => (1, cs)
  let sign := signAndRest.1
  let cs1 := signAndRest.2
  let ip := cs1.takeWhile Char.isDigit
  let rest := cs1.dropWhile Char.isDigit
  match rest with
  | [] => if ip = [] then none else some (sign * (digitsVal ip : ℚ))
  | '.' :: rest2 =>
    let fp := rest2.takeWhile Char.isDigit
    let rest3 := rest2.dropWhile Char.isDigit
    if rest3 = [] ∧ (ip ≠ [] ∨ fp ≠ []) then
      some (sign * ((digitsVal ip : ℚ) + (digitsVal fp : ℚ) / (10 : ℚ) ^ fp.length))
    else none
  | _ => none

/-- Python `float(v)` wrapped in try/except: `None` and unparseable strings
yield `none` (the exception path), numbers pass through. -/
def pyFloatV : Value → Option ℚ
  | vNone => none
  | vNum q => some q
  | vStr s => parseDecimal s

/-- Python 3 `round(x)` (round-half-to-even) on a rational. -/
def roundHalfEven (x : ℚ) : ℤ :=
  let f := ⌊x⌋
  let r := x - (f : ℚ)
  if r < 1 / 2 then f
  else if 1 / 2 < r then f + 1
  else if f % 2 = 0 then f else f + 1

/-- Python `round(x, 2)`. -/
def round2 (x : ℚ) : ℚ :=
  (roundHalfEven (100 * x) : ℚ) / 100

/-- ReviewerAgent._to_float: coerce a cell to a number, stripping currency
marks; on parse failure fall back to the first whitespace token; `None` on
any failure (`reviewer_agent.py` lines 47-62). -/
def toFloatV : Value → Option ℚ
  | vNone => none
  | vNum q => some q
  | vStr s0 =>
    let s := replaceAll (replaceAll (replaceAll (String.mk (pyStripL s0.toList)) "," "") "₹" "") "INR" ""
    if s = "" then none
    else
      match parseDecimal s with
      | some q => some q
      | none =>
        match splitWsGo s.toList [] with
        | tok :: _ => parseDecimal (String.mk tok)
        | [] => none

/-! ### MapperAgent (CatalogMatcher): normalization -/

/-- Remove every parenthesized digit run `(\d+)` from a character list
(the regex `re.sub(r"\(\d+\)", "", text)`); `fuel` bounds the recursion
and is always supplied larger than the list length. -/
def removeParensGo : Nat → List Char → List Char
  | 0, cs => cs
  | _ + 1, [] => []
  | fuel + 1, c :: cs =>
    if c = '(' then
      let ds := cs.takeWhile Char.isDigit
      let rest := cs.dropWhile Char.isDigit
      match rest with
      | ')' :: rest2 =>
        if ds = [] then c :: removeParensGo fuel cs else removeParensGo fuel rest2
      | _ => c :: removeParensGo fuel cs
    else c :: removeParensGo fuel cs

/-- Collapse runs of whitespace to single spaces
(`re.sub(r"\s+", " ", text)`); the flag records whether the previous
character was part of a whitespace run. -/
def collapseWsGo : Bool → List Char → List Char
  | _, [] => []
  | prevSpace, c :: cs =>
    if pySpace c then
      if prevSpace then collapseWsGo true cs else ' ' :: collapseWsGo true cs
    else c :: collapseWsGo false cs

/-- MapperAgent._normalize_model (`mapper_agent.py` lines 17-27): uppercase,
remove the literal text `MODEL NO`, strip, delete parenthesized digit runs,
collapse whitespace, strip. -/
def normalizeModel (text : String) : String :=
  if text = "" then ""
  else
    let t := myUpper text
    let t := replaceAll t "MODEL NO" ""
    let cs := pyStripL t.toList
    let cs := removeParensGo (cs.length + 1) cs
    let cs := collapseWsGo false cs
    String.mk (pyStripL cs)

/-! ### LoggerAgent (BlockExtractor): block segmentation and dedup insert -/

/-- Does a line (after strip) start with the validation marker, the
condition closing a block in `_split_invoices`? -/
def isValidationLine (l : String) : Bool :=
  leadsWith "VALIDATION:".toList (pyStripL l.toList)

/-- LoggerAgent._split_invoices (`logger_agent.py` lines 52-61) at the level
of the already-split lines: accumulate lines into `cur`, close a block at
every validation line; a trailing unterminated `cur` is dropped. -/
def splitGo : List String → List String → List (List String)
  | [], _ => []
  | l :: ls, cur =>
    if isValidationLine l then (cur ++ [l]) :: splitGo ls []
    else splitGo ls (cur ++ [l])

/-- The block list produced by `_split_invoices` from the lines of the
input text. -/
def splitInvoicesLines (lines : List String) : List (List String) :=
  splitGo lines []

/-- An Invoice_Summary row: the composite-key cells `DocNo` (column 0) and
`SellerGstin` (column 2) are modelled as optional strings, the other 16
cells are opaque. -/
structure SummaryRowS where
  docNo : Option String
  sellerGstin : Option String
  rest : List Value
deriving DecidableEq

/-- A Line_Items row: the leading `DocNo` cell plus the seven cells taken
from the parsed item dict. -/
structure ItemRowS where
  docNo : Option String
  rest : List Value
deriving DecidableEq

/-- A QR_Meta row: its own `DocNo` cell plus the remaining ten cells. -/
structure QrRowS where
  docNo : Option String
  rest : List Value
deriving DecidableEq

/-- The three tables of the store that LoggerAgent.process appends to. -/
structure Store where
  summaryRows : List SummaryRowS
  itemRows : List ItemRowS
  qrRows : List QrRowS
deriving DecidableEq

/-- Result of `_parse_invoice` on one block: the summary's key fields, the
rest of the summary cells, the parsed line items (their seven cells), and
the QR-meta dict when the payload parsed (`if qr_meta:`). -/
structure Parsed where
  docNo : Option String
  sellerGstin : Option String
  summaryRest : List Value
  items : List (List Value)
  qrMeta : Option QrRowS
deriving DecidableEq

/-- Python truthiness of an optional string field (`None` and `""` falsy). -/
def truthyOS : Option String → Bool
  | none => false
  | some s => s ≠ ""

/-- Python `f"{v}"` on an optional string. -/
def pyStrOpt : Option String → String
  | none => "None"
  | some s => s

/-- Composite key of a stored summary row,
`f"{row[2]}_{row[0]}"` (`logger_agent.py` line 191). -/
def summaryKey (r : SummaryRowS) : String :=
  pyStrOpt r.sellerGstin ++ "_" ++ pyStrOpt r.docNo

/-- Composite key of a parsed block,
`f"{summary.get('SellerGstin')}_{summary.get('DocNo')}"` (line 199). -/
def parsedKey (p : Parsed) : String :=
  pyStrOpt p.sellerGstin ++ "_" ++ pyStrOpt p.docNo

/-- Append one parsed block's rows to the store as one logical unit
(`logger_agent.py` lines 204-228). -/
def appendBlock (st : Store) (p : Parsed) : Store :=
  { summaryRows := st.summaryRows ++ [⟨p.docNo, p.sellerGstin, p.summaryRest⟩]
    itemRows := st.itemRows ++ p.items.map (fun cells => ⟨p.docNo, cells⟩)
    qrRows := st.qrRows ++ p.qrMeta.toList }

/-- The per-block loop of LoggerAgent.process (lines 193-231): skip blocks
with a falsy DocNo or SellerGstin, skip already-present composite keys,
otherwise insert the block's rows and record its key. -/
def loggerGo (parse : String → Parsed) :
    List String → Store × List String → Store × List String
  | [], p => p
  | b :: bs, (st, keys) =>
    let p := parse b
    if truthyOS p.docNo && truthyOS p.sellerGstin then
      if parsedKey p ∈ keys then loggerGo parse bs (st, keys)
      else loggerGo parse bs (appendBlock st p, keys ++ [parsedKey p])
    else loggerGo parse bs (st, keys)

/-- LoggerAgent.process on the lines of the input text: split into blocks,
seed the key set from the existing Invoice_Summary rows, run the per-block
loop. The extraction `_parse_invoice` is passed as an explicit (pure)
function, as its regex details do not bear on the store-level properties. -/
def loggerProcess (parse : String → Parsed) (lines : List String) (st : Store) : Store :=
  (loggerGo parse ((splitInvoicesLines lines).map (String.intercalate "\n"))
    (st, st.summaryRows.map summaryKey)).1

/-! ### ReviewerAgent (ReconciliationEngine) -/

/-- A Line_Items row as read back by the reviewer (first eight columns). -/
structure LIRow where
  docNo : Value
  sNo : Value
  desc : Value
  hsn : Value
  qty : Value
  unit : Value
  rate : Value
  amount : Value
deriving DecidableEq

/-- The computed amount `float(qty) * float(rate)` of a line row, `none`
when the try/except fires (`reviewer_agent.py` lines 101-104). -/
def computedOf (r : LIRow) : Option ℚ :=
  match pyFloatV r.qty, pyFloatV r.rate with
  | some a, some b => some (a * b)
  | _, _ => none

/-- The stored amount `float(amount) if amount is not None else None` of a
line row (lines 106-109). -/
def amountFOf (r : LIRow) : Option ℚ :=
  pyFloatV r.amount

/-- The per-line match flag condition (lines 111-114): both values present
and equal after rounding to two decimals. -/
def lineItemOk (r : LIRow) : Bool :=
  match computedOf r, amountFOf r with
  | some c, some a => round2 c = round2 a
  | _, _ => false

/-- A LineItem_Errors row (line 117). -/
structure ErrRow where
  docNo : Value
  sNo : Value
  desc : Value
  qty : Value
  rate : Value
  amount : Value
  computed : Option ℚ
  flag : String
deriving DecidableEq

/-- The error row the reviewer appends for a failing line. -/
def mkErrRow (r : LIRow) : ErrRow :=
  ⟨r.docNo, r.sNo, r.desc, r.qty, r.rate, r.amount, computedOf r, "❌"⟩

/-- Step 1 error accumulation: one LineItem_Errors row per line row with a
truthy DocNo whose match flag is ❌ (lines 96-117). -/
def errorsOf (items : List LIRow) : List ErrRow :=
  items.filterMap fun r =>
    if pyTruthy r.docNo then
      if lineItemOk r then none else some (mkErrRow r)
    else none

/-- Association-list lookup keyed by cell values (Python dict `.get`). -/
def lookupA {α : Type} : List (Value × α) → Value → Option α
  | [], _ => none
  | (k, v) :: rest, d => if k = d then some v else lookupA rest d

/-- Insertion-ordered dict update `m[k] = m.get(k, 0) + x` used for the
running taxable totals. -/
def updateTot : List (Value × ℚ) → Value → ℚ → List (Value × ℚ)
  | [], k, x => [(k, x)]
  | (k', v) :: rest, k, x =>
    if k' = k then (k', v + x) :: rest else (k', v) :: updateTot rest k x

/-- This line row's contribution to its document's taxable total
(lines 119-124): stored amount when parseable, else the computed amount,
else nothing (the dict entry is still created, initialised to 0). -/
def contrib (r : LIRow) : ℚ :=
  match amountFOf r, computedOf r with
  | some a, _ => a
  | none, some c => c
  | none, none => 0

/-- Step 1 taxable totals `line_totals`: per truthy DocNo, the sum of the
line contributions, in first-seen order. -/
def lineTotalsOf (items : List LIRow) : List (Value × ℚ) :=
  items.foldl (fun lt r => if pyTruthy r.docNo then updateTot lt r.docNo (contrib r) else lt) []

/-- The rate data the reviewer keeps per document from a GST_Fetch row
(lines 131-140). The three rate cells are written by GSTFetcherAgent as
numbers or empty, so they are typed `Option ℚ` directly. -/
structure GstInfo where
  gst : Option ℚ
  cgst : Option ℚ
  sgst : Option ℚ
  desc : Value
deriving DecidableEq

/-- A GST_Fetch row as read back by the reviewer (first eight columns). -/
structure GstRowR where
  docNo : Value
  docDt : Value
  hsn : Value
  desc : Value
  gst : Option ℚ
  cgst : Option ℚ
  sgst : Option ℚ
  source : Value
deriving DecidableEq

/-- Dict assignment `m[k] = v` on an insertion-ordered association list
(later assignment wins). -/
def setAssoc {α : Type} : List (Value × α) → Value → α → List (Value × α)
  | [], k, v => [(k, v)]
  | (k', v') :: rest, k, v =>
    if k' = k then (k', v) :: rest else (k', v') :: setAssoc rest k v

/-- Step 2 lookup `gst_lookup` (lines 127-140): one entry per truthy DocNo,
last row wins. -/
def gstLookupOf (rows : List GstRowR) : List (Value × GstInfo) :=
  rows.foldl
    (fun m r => if pyTruthy r.docNo then setAssoc m r.docNo ⟨r.gst, r.cgst, r.sgst, r.desc⟩ else m)
    []

/-- An Invoice_Summary row as the reviewer uses it: the DocNo cell and the
cell of the heuristically located TotInvVal column (lines 151-156). -/
structure SumRowR where
  docNo : Value
  totCell : Value
deriving DecidableEq

/-- Step 3 lookup `summary_lookup`: per truthy DocNo the coerced
independent total, last row wins. -/
def sumLookupOf (rows : List SumRowR) : List (Value × Option ℚ) :=
  rows.foldl (fun m r => if pyTruthy r.docNo then setAssoc m r.docNo (toFloatV r.totCell) else m) []

/-- A Review_Report row (lines 174-178). -/
structure ReviewRow where
  docNo : Value
  taxable : ℚ
  gst : Option ℚ
  cgst : ℚ
  sgst : ℚ
  expected : ℚ
  qrTotal : ℚ
  diff : ℚ
  ok : String
deriving DecidableEq

/-- Step 4 row construction for one document (lines 167-178). -/
def mkReviewRow (d : Value) (t : ℚ) (g : Option ℚ) (c s tot : ℚ) : ReviewRow :=
  { docNo := d
    taxable := round2 t
    gst := g
    cgst := round2 (t * (c / 100))
    sgst := round2 (t * (s / 100))
    expected := round2 (t + t * (c / 100) + t * (s / 100))
    qrTotal := tot
    diff := round2 (t + t * (c / 100) + t * (s / 100) - tot)
    ok := if |round2 (t + t * (c / 100) + t * (s / 100) - tot)| < 1 / 100 then "✅" else "❌" }

/-- The Step 4 decision for one `line_totals` entry: skip unless the GST
info has both halves and the independent total is present (lines 159-178). -/
def reviewStep (gl : List (Value × GstInfo)) (sl : List (Value × Option ℚ))
    (p : Value × ℚ) : Option ReviewRow :=
  match lookupA gl p.1 with
  | none => none
  | some gi =>
    match gi.cgst, gi.sgst, (lookupA sl p.1).bind id with
    | some c, some s, some tot => some (mkReviewRow p.1 p.2 gi.gst c s tot)
    | _, _, _ => none

/-- The Review_Report rows produced by Step 4, in `line_totals` order. -/
def reviewsOf (items : List LIRow) (gst : List GstRowR) (sums : List SumRowR) : List ReviewRow :=
  (lineTotalsOf items).filterMap (reviewStep (gstLookupOf gst) (sumLookupOf sums))

/-- The data Step 4 needs for a given document key: taxable total, the
GST_Rate cell, both halves, and the independent total; `none` when any
part is missing. -/
def reviewKeyData (items : List LIRow) (gst : List GstRowR) (sums : List SumRowR) (d : Value) :
    Option (ℚ × Option ℚ × ℚ × ℚ × ℚ) :=
  match lookupA (lineTotalsOf items) d with
  | none => none
  | some t =>
    match lookupA (gstLookupOf gst) d with
    | none => none
    | some gi =>
      match gi.cgst, gi.sgst, (lookupA (sumLookupOf sums) d).bind id with
      | some c, some s, some tot => some (t, gi.gst, c, s, tot)
      | _, _, _ => none

/-! ### GSTFetcherAgent (TieredRateResolver) -/

/-- A cache entry `hsn -> (gst_rate, description)`; `gst_rate` is absent
when the dict lacks the key. The agent only ever stores integer rates. -/
structure CacheEntry where
  gstRate : Option ℤ
  description : Option String
deriving DecidableEq

/-- The static fallback table `HSN_FALLBACK`
(`gst_fetcher_agent.py` lines 15-19). -/
def HSN_FALLBACK : List (String × CacheEntry) :=
  [("94035000", ⟨some 18, some "Wooden furniture"⟩),
   ("94036000", ⟨some 12, some "Metal furniture"⟩)]

/-- Association-list lookup keyed by strings (Python dict membership and
indexing for the HSN caches). -/
def lookupS {α : Type} : List (String × α) → String → Option α
  | [], _ => none
  | (k, v) :: rest, d => if k = d then some v else lookupS rest d

/-- The dict merge `*** base, **over ***` (with braces): keys of `base` in
order, values overridden by `over`, then the new keys of `over`. -/
def mergeCache (base over : List (String × CacheEntry)) : List (String × CacheEntry) :=
  base.map (fun kv => (kv.1, (lookupS over kv.1).getD kv.2)) ++
    over.filter (fun kv => (lookupS base kv.1).isNone)

/-- GSTFetcherAgent._load_hsn_cache (lines 28-36): merge the stored file
over the fallback seed; a missing or unreadable file (`none`) yields the
fallback alone. -/
def loadHsnCache (stored : Option (List (String × CacheEntry))) : List (String × CacheEntry) :=
  match stored with
  | none => HSN_FALLBACK
  | some m => mergeCache HSN_FALLBACK m

/-- Parsed outcome of the remote lookup for a code: `none` models a failed
request / non-200 / raised exception, `some (rate?, desc?)` a parsed page
whose exactly-matching row yielded the given rate digits and description
(`rate? = none` when no row matched or no digits were found). -/
def RemoteFn : Type := String → Option (Option ℤ × Option String)

/-- The endpoint identifier returned as the source of a remote hit. -/
def vakilUrl (hsn : String) : String :=
  "https://vakilsearch.com/hsn-code/search/" ++ hsn

/-- Result of `_fetch_gst_details`: the returned triple, the cache after
the call, and whether the remote tier was contacted. -/
structure FetchResult where
  rate : Option ℤ
  desc : Option String
  source : String
  newCache : List (String × CacheEntry)
  contactedRemote : Bool
deriving DecidableEq

/-- The fallback step at the end of `_fetch_gst_details` (lines 87-92),
reached only after the remote tier was attempted. -/
def fallbackStep (cache : List (String × CacheEntry)) (hsn : String) : FetchResult :=
  match lookupS HSN_FALLBACK hsn with
  | some e => ⟨e.gstRate, e.description, "Fallback Dictionary", cache, true⟩
  | none => ⟨none, none, "Not Found", cache, true⟩

/-- GSTFetcherAgent._fetch_gst_details (lines 44-92): cache tier first;
else the remote lookup, whose parsed rate is cached and returned only when
truthy (`if gst_rate:`), so a parsed rate of 0 falls through; else the
fallback dictionary; else Not Found. -/
def fetchGstDetails (cache : List (String × CacheEntry)) (remote : RemoteFn) (hsn : String) :
    FetchResult :=
  match lookupS cache hsn with
  | some e => ⟨e.gstRate, e.description, "Local Cache", cache, false⟩
  | none =>
    match remote hsn with
    | some (some r, d) =>
      if r ≠ 0 then ⟨some r, d, vakilUrl hsn, cache ++ [(hsn, ⟨some r, d⟩)], true⟩
      else fallbackStep cache hsn
    | _ => fallbackStep cache hsn

/-- The CGST/SGST halving of GSTFetcherAgent.process (lines 132-136):
`if gst_rate:` is Python truthiness, so `None` and `0` both yield nulls. -/
def cgstSgstOf (rate : Option ℤ) : Option ℚ × Option ℚ :=
  match rate with
  | some r => if r ≠ 0 then (some ((r : ℚ) / 2), some ((r : ℚ) / 2)) else (none, none)
  | none => (none, none)

/-- The description truncation for display (line 138). -/
def descDisplay (d : Option String) : Option String :=
  d.map fun s => if s.length > 80 then String.mk (s.toList.take 80) ++ "..." else s

/-- A GST_Fetch row as written (line 140). -/
structure GstOutRow where
  docNo : Value
  docDt : Value
  hsn : String
  desc : Option String
  gst : Option ℤ
  cgst : Option ℚ
  sgst : Option ℚ
  source : String
deriving DecidableEq

/-- The per-invoice body of GSTFetcherAgent.process once the HSN is known
(lines 130-141): fetch, halve, append one row; returns the row and the
cache state after the call. -/
def processDoc (cache : List (String × CacheEntry)) (remote : RemoteFn)
    (docno docdt : Value) (hsn : String) : GstOutRow × List (String × CacheEntry) :=
  let f := fetchGstDetails cache remote hsn
  let cs := cgstSgstOf f.rate
  (⟨docno, docdt, hsn, descDisplay f.desc, f.rate, cs.1, cs.2, f.source⟩, f.newCache)

/-- The HSN lookup built from QR_Meta (lines 113-117): per truthy DocNo
with truthy MainHsnCode, the stringified code, last row wins. -/
def hsnLookupOf (qrRows : List (Value × Value)) : List (Value × String) :=
  qrRows.foldl
    (fun m r => if pyTruthy r.1 && pyTruthy r.2 then setAssoc m r.1 (pyStrV r.2) else m)
    []

/-- The invoice loop of GSTFetcherAgent.process (lines 120-141) over the
(DocNo, DocDt) pairs of Invoice_Summary, threading the growing cache. -/
def gstGo (remote : RemoteFn) :
    List (Value × Value) → List (Value × String) → List (String × CacheEntry) →
    List GstOutRow × List (String × CacheEntry)
  | [], _, cache => ([], cache)
  | (docno, docdt) :: rest, hmap, cache =>
    if pyTruthy docno then
      match lookupA hmap docno with
      | some hsn =>
        if hsn ≠ "" then
          let pr := processDoc cache remote docno docdt hsn
          let tail := gstGo remote rest hmap pr.2
          (pr.1 :: tail.1, tail.2)
        else gstGo remote rest hmap cache
      | none => gstGo remote rest hmap cache
    else gstGo remote rest hmap cache

/-! ### MapperAgent (CatalogMatcher): matching -/

/-- A product-master entry keyed by the normalized model string
(`mapper_agent.py` lines 39-47). -/
structure MasterEntry where
  productName : Value
  sku : Value
  hsn : Value
  rate : Value
deriving DecidableEq

/-- A Mapped_Items row (lines 66-70, 90-100). -/
structure MRow where
  docNo : Value
  sNo : Value
  desc : Value
  hsn : Value
  qty : Value
  unit : Value
  rate : Value
  amount : Value
  mappedModel : String
  mProd : Value
  mSku : Value
  mHsn : Value
  mRate : Value
  flag : String
deriving DecidableEq

/-- An Unmapped_Items row (lines 72-75, 101-103). -/
structure URow where
  docNo : Value
  sNo : Value
  desc : Value
  hsn : Value
  qty : Value
  unit : Value
  rate : Value
  amount : Value
  normModel : String
deriving DecidableEq

/-- The Mapped_Items row written on a catalog hit (lines 89-94); fails
(Python `float` raising out of any try) when either rate cell is not a
number. -/
def hitRow (r : LIRow) (norm : String) (m : MasterEntry) : Option MRow :=
  match pyFloatV r.rate, pyFloatV m.rate with
  | some a, some b =>
    some ⟨r.docNo, r.sNo, r.desc, r.hsn, r.qty, r.unit, r.rate, r.amount,
      norm, m.productName, m.sku, m.hsn, m.rate, if a = b then "✅" else "❌"⟩
  | _, _ => none

/-- The Mapped_Items row written on a miss (lines 97-100). -/
def missRow (r : LIRow) (norm : String) : MRow :=
  ⟨r.docNo, r.sNo, r.desc, r.hsn, r.qty, r.unit, r.rate, r.amount,
    norm, vStr "NOT FOUND", vStr "NOT FOUND", vStr "NOT FOUND", vStr "NOT FOUND", "❌"⟩

/-- The Unmapped_Items row written on a miss (lines 101-103). -/
def unmapRow (r : LIRow) (norm : String) : URow :=
  ⟨r.docNo, r.sNo, r.desc, r.hsn, r.qty, r.unit, r.rate, r.amount, norm⟩

/-- The line-item loop of MapperAgent.process (lines 78-103): normalize the
stringified description, exact-match it in the master map; a hit writes one
mapped row (raising if a rate is not numeric, modelled by `Except`); a miss
writes a NOT FOUND mapped row and an unmapped row. -/
def mapGo (mm : List (String × MasterEntry)) : List LIRow → Except String (List MRow × List URow)
  | [] => .ok ([], [])
  | r :: rest =>
    let norm := normalizeModel (pyStrV r.desc)
    match lookupS mm norm with
    | some m =>
      match hitRow r norm m with
      | some row =>
        match mapGo mm rest with
        | .ok p => .ok (row :: p.1, p.2)
        | .error e => .error e
      | none => .error "could not convert value to float"
    | none =>
      match mapGo mm rest with
      | .ok p => .ok (missRow r norm :: p.1, unmapRow r norm :: p.2)
      | .error e => .error e

/-! ### Concrete inputs used by witnesses and counterexamples -/

/-- A remote tier that always fails (no network). -/
def remoteNone : RemoteFn := fun _ => none

/-- A remote tier whose page always parses to a rate of 0. -/
def remoteZero : RemoteFn := fun _ => some (some 0, some "zero-rated")

/-- A block extraction returning a fixed parsed invoice (used to
instantiate the parse-parametric logger theorems). -/
def parseW : String → Parsed := fun _ => ⟨some "D1", some "S1", [], [], none⟩

/-- A summary list with one invoice D1. -/
def sumLW : List (Value × Value) := [(vStr "D1", vNone)]

/-- An HSN lookup mapping D1 to a fallback-table code. -/
def hmapW : List (Value × String) := [(vStr "D1", "94035000")]

/-- The GST_Fetch row written for D1 against the fallback-seeded cache. -/
def rowW : GstOutRow := (processDoc HSN_FALLBACK remoteNone (vStr "D1") vNone "94035000").1

/-- A persisted cache file carrying an explicit zero rate for a code. -/
def cacheZero : List (String × CacheEntry) :=
  loadHsnCache (some [("12345678", ⟨some 0, none⟩)])

/-- The GST_Fetch row written for a document whose code resolves to the
zero-rate cache entry. -/
def rowZ : GstOutRow := (processDoc cacheZero remoteNone (vStr "D2") vNone "12345678").1

/-- A GST_Fetch row for D1 with rate 18, halves 9/9. -/
def gstD1 : GstRowR := ⟨vStr "D1", vNone, vNone, vNone, some 18, some 9, some 9, vStr "Local Cache"⟩

/-- A summary row declaring total 1180 for D1. -/
def sumD1a : SumRowR := ⟨vStr "D1", vNum 1180⟩

/-- A summary row declaring total 1175 for D1. -/
def sumD1b : SumRowR := ⟨vStr "D1", vNum 1175⟩

/-- A line row for D1 carrying the full taxable amount 1000. -/
def itemD1 : LIRow := ⟨vStr "D1", vNum 1, vStr "X", vNone, vNum 1, vStr "SET", vNum 1000, vNum 1000⟩

/-- The line row Quantity=2, Rate=150.00, Amount=300.00 of the spec. -/
def itemOk300 : LIRow := ⟨vStr "D1", vNum 1, vStr "X", vNone, vNum 2, vStr "SET", vNum 150, vNum 300⟩

/-- The same line row with Amount=299.50. -/
def itemBad2995 : LIRow :=
  ⟨vStr "D1", vNum 1, vStr "X", vNone, vNum 2, vStr "SET", vNum 150, vNum (2995 / 10)⟩

/-- The same line row with the Amount cell empty. -/
def itemNoAmt : LIRow := ⟨vStr "D1", vNum 1, vStr "X", vNone, vNum 2, vStr "SET", vNum 150, vNone⟩

-- THEOREMS BELOW

/-! ### C5: normalize on the spec's example -/

/-- C5 counterexample: the two normalizations are not equal — the colon of
the `Model No:` label survives, because `_normalize_model` removes only the
literal text `MODEL NO`. -/
theorem c5_counterexample :
    normalizeModel "Model No: ABC-100 (73239920)" = ": ABC-100" ∧
    normalizeModel "ABC-100" = "ABC-100" ∧
    normalizeModel "Model No: ABC-100 (73239920)" ≠ normalizeModel "ABC-100" :=
  ⟨rfl, rfl, by decide⟩

/-- C5 amended: normalize("Model No: ABC-100 (73239920)") is ": ABC-100"
(label colon kept), while normalize("ABC-100") is "ABC-100"; uppercasing,
parenthesized-digit removal and whitespace collapsing behave as stated. -/
theorem c5_amended :
    normalizeModel "Model No: ABC-100 (73239920)" = ": ABC-100" ∧
    normalizeModel "ABC-100" = "ABC-100" :=
  ⟨rfl, rfl⟩

/-! ### C8: CatalogMatcher on an empty catalog -/

/-- C8: with an empty master map the mapper never fails, and writes for
every line row exactly one Mapped_Items row whose catalog fields are all
the NOT FOUND sentinel and one Unmapped_Items row carrying the normalized
key. -/
theorem c8_empty_catalog (items : List LIRow) :
    mapGo [] items =
      .ok
        (items.map fun r =>
          { docNo := r.docNo, sNo := r.sNo, desc := r.desc, hsn := r.hsn, qty := r.qty,
            unit := r.unit, rate := r.rate, amount := r.amount,
            mappedModel := normalizeModel (pyStrV r.desc),
            mProd := vStr "NOT FOUND", mSku := vStr "NOT FOUND", mHsn := vStr "NOT FOUND",
            mRate := vStr "NOT FOUND", flag := "❌" },
         items.map fun r =>
          { docNo := r.docNo, sNo := r.sNo, desc := r.desc, hsn := r.hsn, qty := r.qty,
            unit := r.unit, rate := r.rate, amount := r.amount,
            normModel := normalizeModel (pyStrV r.desc) }) := by
  induction items with
  | nil => rfl
  | cons r rest ih => simp [mapGo, lookupS, ih, missRow, unmapRow]

/-! ### C4: fallback-table codes and the resolver tiers -/

/-- Lookup distributes over list append, first list first. -/
theorem lookupS_append {α : Type} (d : String) :
    ∀ xs ys : List (String × α),
      lookupS (xs ++ ys) d = ((lookupS xs d).rec (lookupS ys d) fun v => some v) := by
  intro xs ys
  induction xs with
  | nil => simp [lookupS]
  | cons kv rest ih =>
    by_cases hk : kv.1 = d
    · simp [lookupS, hk]
    · simpa [lookupS, hk] using ih

/-- Rewriting every value of an association list keeps lookup success. -/
theorem lookupS_map_isSome {α β : Type} (d : String) (g : String × α → β) :
    ∀ base : List (String × α),
      (lookupS (base.map fun kv => (kv.1, g kv)) d).isSome = (lookupS base d).isSome := by
  intro base
  induction base with
  | nil => simp [lookupS]
  | cons kv rest ih =>
    by_cases hk : kv.1 = d
    · simp [lookupS, hk]
    · simpa [lookupS, hk] using ih

/-- Keys of the fallback seed stay present after the load-time merge. -/
theorem lookupS_mergeCache_isSome (over base : List (String × CacheEntry)) (hsn : String)
    (h : (lookupS base hsn).isSome) : (lookupS (mergeCache base over) hsn).isSome := by
  unfold mergeCache
  rw [lookupS_append]
  have hm := lookupS_map_isSome hsn (fun kv => (lookupS over kv.1).getD kv.2) base
  rw [h] at hm
  obtain ⟨v, hv⟩ := Option.isSome_iff_exists.mp hm
  rw [hv]
  rfl

/-- Codes of the fallback table are in the loaded cache whatever the
persisted file holds. -/
theorem lookupS_loadHsnCache_isSome (stored : Option (List (String × CacheEntry)))
    (hsn : String) (h : (lookupS HSN_FALLBACK hsn).isSome) :
    (lookupS (loadHsnCache stored) hsn).isSome := by
  cases stored with
  | none => exact h
  | some m => exact lookupS_mergeCache_isSome m HSN_FALLBACK hsn h

/-- C4 counterexample: for the fallback-only code 94035000 and a persisted
cache file that lacks it (here: an empty file), the FIRST call already
returns source "Local Cache", not the fallback-tier source, because
`_load_hsn_cache` seeds the cache with the fallback table. -/
theorem c4_counterexample :
    (fetchGstDetails (loadHsnCache (some [])) remoteNone "94035000").source = "Local Cache" ∧
    (fetchGstDetails (loadHsnCache (some [])) remoteNone "94035000").source ≠
      "Fallback Dictionary" :=
  ⟨rfl, by decide⟩

/-- C4 amended: for every code of the static fallback table, whatever the
persisted cache file holds, the first `_fetch_gst_details` call returns
source "Local Cache" without contacting the remote tier and leaves the
cache unchanged, and the second call behaves the same. -/
theorem c4_amended (stored : Option (List (String × CacheEntry))) (remote : RemoteFn)
    (hsn : String) (h : (lookupS HSN_FALLBACK hsn).isSome) :
    (fetchGstDetails (loadHsnCache stored) remote hsn).source = "Local Cache" ∧
    (fetchGstDetails (loadHsnCache stored) remote hsn).contactedRemote = false ∧
    (fetchGstDetails (loadHsnCache stored) remote hsn).newCache = loadHsnCache stored ∧
    (fetchGstDetails (fetchGstDetails (loadHsnCache stored) remote hsn).newCache remote
        hsn).source = "Local Cache" ∧
    (fetchGstDetails (fetchGstDetails (loadHsnCache stored) remote hsn).newCache remote
        hsn).contactedRemote = false := by
  have hl := lookupS_loadHsnCache_isSome stored hsn h
  obtain ⟨e, he⟩ := Option.isSome_iff_exists.mp hl
  simp [fetchGstDetails, he]

/-- C4 witness: instantiation at code 94035000, an empty persisted file and
a dead network. -/
theorem c4_witness :
    (lookupS HSN_FALLBACK "94035000").isSome = true ∧
    (fetchGstDetails (loadHsnCache (some [])) remoteNone "94035000").contactedRemote = false :=
  ⟨by decide, (c4_amended (some []) remoteNone "94035000" (by decide)).2.1⟩

/-- Evaluation check of the `_to_float` coercion on a currency-marked
cell, exercising strip, replace and parse together. -/
theorem toFloatV_currency : toFloatV (vStr " ₹1,180.00 ") = some 1180 := by
  norm_num +decide [toFloatV, parseDecimal, digitsVal, pyStripL, replaceAll, replaceFuel,
    leadsWith, pySpace]
  norm_cast

/-! ### C7 and C10: rate records, halving, and the zero-rate edge -/

/-- Rows written by the GST fetch loop all satisfy the halving discipline
of `process`: a truthy (nonzero) rate is halved exactly, an absent or zero
rate leaves both halves null. -/
theorem gstGo_row_halving (remote : RemoteFn) :
    ∀ (sums : List (Value × Value)) (hmap : List (Value × String))
      (cache : List (String × CacheEntry)) (row : GstOutRow),
      row ∈ (gstGo remote sums hmap cache).1 →
      (∀ n : ℤ, row.gst = some n → n ≠ 0 →
          row.cgst = some ((n : ℚ) / 2) ∧ row.sgst = some ((n : ℚ) / 2)) ∧
        ((row.gst = none ∨ row.gst = some 0) → row.cgst = none ∧ row.sgst = none) := by
  intro sums
  induction sums with
  | nil => intro hmap cache row hmem; simp [gstGo] at hmem
  | cons hd rest ih =>
    intro hmap cache row hmem
    obtain ⟨docno, docdt⟩ := hd
    by_cases hdn : pyTruthy docno
    · simp only [gstGo, hdn, if_true] at hmem
      cases hh : lookupA hmap docno with
      | none => rw [hh] at hmem; exact ih hmap cache row hmem
      | some hsn =>
        rw [hh] at hmem
        dsimp only at hmem
        by_cases hne : hsn ≠ ""
        · rw [if_pos hne] at hmem
          rcases List.mem_cons.mp hmem with hhead | htail
          · subst hhead
            constructor
            · intro n hgst hn
              have hrate : (fetchGstDetails cache remote hsn).rate = some n := hgst
              simp [processDoc, cgstSgstOf, hrate, hn]
            · intro hz
              rcases hz with hz | hz
              · have hrate : (fetchGstDetails cache remote hsn).rate = none := hz
                simp [processDoc, cgstSgstOf, hrate]
              · have hrate : (fetchGstDetails cache remote hsn).rate = some 0 := hz
                simp [processDoc, cgstSgstOf, hrate]
          · exact ih hmap _ row htail
        · rw [if_neg hne] at hmem
          exact ih hmap cache row hmem
    · simp only [gstGo, hdn, if_false] at hmem
      exact ih hmap cache row hmem

/-- C7 counterexample: a persisted cache entry with rate 0 produces a
GST_Fetch row whose Rate cell is present (0) while CGST and SGST are null,
not 0/2. -/
theorem c7_counterexample :
    rowZ.gst = some 0 ∧ rowZ.cgst = none ∧ rowZ.sgst = none ∧
      rowZ.cgst ≠ some (((0 : ℤ) : ℚ) / 2) :=
  ⟨rfl, rfl, rfl, by
    show (none : Option ℚ) ≠ some (((0 : ℤ) : ℚ) / 2)
    simp⟩

/-- C7 amended: every written RateRecord has an integral Rate cell when
present (the model types it `Option ℤ`, as every tier stores integers);
when Rate is present AND nonzero, CGST and SGST are each exactly Rate/2;
when Rate is absent OR ZERO, CGST and SGST are both null. -/
theorem c7_amended (remote : RemoteFn) (sums : List (Value × Value))
    (hmap : List (Value × String)) (cache : List (String × CacheEntry)) (row : GstOutRow)
    (hmem : row ∈ (gstGo remote sums hmap cache).1) :
    (∀ n : ℤ, row.gst = some n → n ≠ 0 →
        row.cgst = some ((n : ℚ) / 2) ∧ row.sgst = some ((n : ℚ) / 2)) ∧
      ((row.gst = none ∨ row.gst = some 0) → row.cgst = none ∧ row.sgst = none) :=
  gstGo_row_halving remote sums hmap cache row hmem

/-- C7 witness: the fallback-cached code 94035000 yields rate 18 and halves
18/2. -/
theorem c7_witness : rowW.cgst = some (((18 : ℤ) : ℚ) / 2) ∧ rowW.sgst = some (((18 : ℤ) : ℚ) / 2) :=
  (c7_amended remoteNone sumLW hmapW HSN_FALLBACK rowW (List.mem_singleton_self rowW)).1 18 rfl
    (by decide)

/-- C10: a remote tier that parses a rate of exactly 0 is treated as a
failed lookup — nothing is cached and the cascade falls through to the
fallback tier (hence "Not Found" when the code is absent there as well);
and in the output stage a rate of 0 yields null CGST and SGST. -/
theorem c10_zero_rate (cache : List (String × CacheEntry)) (remote : RemoteFn) (hsn : String)
    (d : Option String) (hnc : lookupS cache hsn = none)
    (hr : remote hsn = some (some 0, d)) :
    fetchGstDetails cache remote hsn = fallbackStep cache hsn ∧
    (fetchGstDetails cache remote hsn).newCache = cache ∧
    (lookupS HSN_FALLBACK hsn = none →
      fetchGstDetails cache remote hsn = ⟨none, none, "Not Found", cache, true⟩) ∧
    cgstSgstOf (some 0) = (none, none) := by
  have hf : fetchGstDetails cache remote hsn = fallbackStep cache hsn := by
    simp [fetchGstDetails, hnc, hr]
  refine ⟨hf, ?_, ?_, by simp [cgstSgstOf]⟩
  · rw [hf]
    unfold fallbackStep
    cases lookupS HSN_FALLBACK hsn <;> rfl
  · intro hnf
    rw [hf]
    simp [fallbackStep, hnf]

/-- C10 witness: a code absent from an empty cache with a zero-parsing
remote page falls through to the fallback step without touching the cache. -/
theorem c10_witness :
    lookupS ([] : List (String × CacheEntry)) "94035000" = none ∧
    remoteZero "94035000" = some (some 0, some "zero-rated") ∧
    fetchGstDetails [] remoteZero "94035000" = fallbackStep [] "94035000" ∧
    (fetchGstDetails [] remoteZero "94035000").newCache = [] :=
  ⟨rfl, rfl, (c10_zero_rate [] remoteZero "94035000" (some "zero-rated") rfl rfl).1,
    (c10_zero_rate [] remoteZero "94035000" (some "zero-rated") rfl rfl).2.1⟩

/-! ### C6: unterminated trailing content -/

/-- Every block produced by `_split_invoices` ends in a validation line. -/
theorem splitGo_block_ends :
    ∀ (ls : List String) (cur : List String) (b : List String), b ∈ splitGo ls cur →
      ∃ l, b.getLast? = some l ∧ isValidationLine l = true := by
  intro ls
  induction ls with
  | nil => intro cur b hb; simp [splitGo] at hb
  | cons l ls ih =>
    intro cur b hb
    by_cases hv : isValidationLine l
    · simp only [splitGo, hv, if_true] at hb
      rcases List.mem_cons.mp hb with rfl | hb2
      · exact ⟨l, by rw [List.getLast?_append_cons]; rfl, hv⟩
      · exact ih [] b hb2
    · simp only [splitGo, hv, if_false] at hb
      exact ih (cur ++ [l]) b hb

/-- A line list with no validation line yields no block at all, whatever
is pending. -/
theorem splitGo_nil_of_no_validation :
    ∀ (extra : List String), (∀ l ∈ extra, isValidationLine l = false) →
      ∀ cur, splitGo extra cur = [] := by
  intro extra
  induction extra with
  | nil => intro _ cur; rfl
  | cons l ls ih =>
    intro h cur
    have hl : isValidationLine l = false := h l (List.mem_cons_self l ls)
    simp only [splitGo, hl, if_false]
    exact ih (fun x hx => h x (List.mem_cons_of_mem l hx)) (cur ++ [l])

/-- Appending validation-free trailing lines leaves the block list
unchanged. -/
theorem splitGo_append_no_validation (extra : List String)
    (h : ∀ l ∈ extra, isValidationLine l = false) :
    ∀ (ls : List String) (cur : List String), splitGo (ls ++ extra) cur = splitGo ls cur := by
  intro ls
  induction ls with
  | nil => intro cur; simp only [List.nil_append, splitGo]; exact splitGo_nil_of_no_validation extra h cur
  | cons l ls ih =>
    intro cur
    show splitGo (l :: (ls ++ extra)) cur = splitGo (l :: ls) cur
    by_cases hv : isValidationLine l
    · simp only [splitGo, hv, if_true]
      rw [ih]
    · simp only [splitGo, hv, if_false]
      exact ih (cur ++ [l])

/-- C6: every produced block ends in a line starting (after strip) with the
validation token; trailing content after the last such line forms no block,
and contributes no Document, LineItem or PayloadMeta row: the whole run is
unchanged by it. -/
theorem c6_unterminated (lines extra : List String) (parse : String → Parsed) (st : Store)
    (h : ∀ l ∈ extra, isValidationLine l = false) :
    (∀ b ∈ splitInvoicesLines lines, ∃ l, b.getLast? = some l ∧ isValidationLine l = true) ∧
    splitInvoicesLines (lines ++ extra) = splitInvoicesLines lines ∧
    loggerProcess parse (lines ++ extra) st = loggerProcess parse lines st := by
  have hsplit : splitInvoicesLines (lines ++ extra) = splitInvoicesLines lines :=
    splitGo_append_no_validation extra h lines []
  refine ⟨fun b hb => splitGo_block_ends lines [] b hb, hsplit, ?_⟩
  unfold loggerProcess
  rw [hsplit]

/-- C6 witness: a two-line terminated invoice followed by trailing junk. -/
theorem c6_witness :
    splitInvoicesLines (["TAX INVOICE", "VALIDATION: OK"] ++ ["trailing", "junk"]) =
      splitInvoicesLines ["TAX INVOICE", "VALIDATION: OK"] :=
  (c6_unterminated ["TAX INVOICE", "VALIDATION: OK"] ["trailing", "junk"] parseW ⟨[], [], []⟩
    (by decide)).2.1

/-! ### C1: idempotence of ingestion -/

/-- The key set only grows along the ingestion loop. -/
theorem loggerGo_keys_mono (parse : String → Parsed) :
    ∀ (bs : List String) (st : Store) (keys : List String) (k : String),
      k ∈ keys → k ∈ (loggerGo parse bs (st, keys)).2 := by
  intro bs
  induction bs with
  | nil => intro st keys k hk; exact hk
  | cons b bs ih =>
    intro st keys k hk
    simp only [loggerGo]
    by_cases ht : (truthyOS (parse b).docNo && truthyOS (parse b).sellerGstin) = true
    · rw [if_pos ht]
      by_cases hm : parsedKey (parse b) ∈ keys
      · rw [if_pos hm]; exact ih st keys k hk
      · rw [if_neg hm]
        exact ih _ _ k (List.mem_append_left _ hk)
    · rw [if_neg ht]; exact ih st keys k hk

/-- After the loop, every truthy block's key is in the key set. -/
theorem loggerGo_covered (parse : String → Parsed) :
    ∀ (bs : List String) (st : Store) (keys : List String) (b : String), b ∈ bs →
      (truthyOS (parse b).docNo && truthyOS (parse b).sellerGstin) = true →
      parsedKey (parse b) ∈ (loggerGo parse bs (st, keys)).2 := by
  intro bs
  induction bs with
  | nil => intro st keys b hb; exact absurd hb (List.not_mem_nil b)
  | cons b0 bs ih =>
    intro st keys b hb htr
    simp only [loggerGo]
    rcases List.mem_cons.mp hb with rfl | hb2
    · rw [if_pos htr]
      by_cases hm : parsedKey (parse b) ∈ keys
      · rw [if_pos hm]; exact loggerGo_keys_mono parse bs st keys _ hm
      · rw [if_neg hm]
        exact loggerGo_keys_mono parse bs _ _ _ (List.mem_append_right _ (List.mem_singleton_self _))
    · by_cases ht0 : (truthyOS (parse b0).docNo && truthyOS (parse b0).sellerGstin) = true
      · rw [if_pos ht0]
        by_cases hm : parsedKey (parse b0) ∈ keys
        · rw [if_pos hm]; exact ih st keys b hb2 htr
        · rw [if_neg hm]; exact ih _ _ b hb2 htr
      · rw [if_neg ht0]; exact ih st keys b hb2 htr

/-- If every truthy block's key is already present, the loop is a no-op. -/
theorem loggerGo_noop (parse : String → Parsed) :
    ∀ (bs : List String) (st : Store) (keys : List String),
      (∀ b ∈ bs, (truthyOS (parse b).docNo && truthyOS (parse b).sellerGstin) = true →
        parsedKey (parse b) ∈ keys) →
      loggerGo parse bs (st, keys) = (st, keys) := by
  intro bs
  induction bs with
  | nil => intro st keys _; rfl
  | cons b bs ih =>
    intro st keys hcov
    simp only [loggerGo]
    by_cases ht : (truthyOS (parse b).docNo && truthyOS (parse b).sellerGstin) = true
    · rw [if_pos ht, if_pos (hcov b (List.mem_cons_self b bs) ht)]
      exact ih st keys (fun x hx => hcov x (List.mem_cons_of_mem b hx))
    · rw [if_neg ht]
      exact ih st keys (fun x hx => hcov x (List.mem_cons_of_mem b hx))

/-- The tracked key set stays equal to the keys of the stored summary
rows. -/
theorem loggerGo_track (parse : String → Parsed) :
    ∀ (bs : List String) (st : Store) (keys : List String),
      keys = st.summaryRows.map summaryKey →
      (loggerGo parse bs (st, keys)).2 = (loggerGo parse bs (st, keys)).1.summaryRows.map summaryKey := by
  intro bs
  induction bs with
  | nil => intro st keys hk; exact hk
  | cons b bs ih =>
    intro st keys hk
    simp only [loggerGo]
    by_cases ht : (truthyOS (parse b).docNo && truthyOS (parse b).sellerGstin) = true
    · rw [if_pos ht]
      by_cases hm : parsedKey (parse b) ∈ keys
      · rw [if_pos hm]; exact ih st keys hk
      · rw [if_neg hm]
        apply ih
        simp [appendBlock, hk, summaryKey, parsedKey]
    · rw [if_neg ht]; exact ih st keys hk

/-- Key-set distinctness is preserved by the loop. -/
theorem loggerGo_nodup (parse : String → Parsed) :
    ∀ (bs : List String) (st : Store) (keys : List String),
      keys.Nodup → (loggerGo parse bs (st, keys)).2.Nodup := by
  intro bs
  induction bs with
  | nil => intro st keys hk; exact hk
  | cons b bs ih =>
    intro st keys hk
    simp only [loggerGo]
    by_cases ht : (truthyOS (parse b).docNo && truthyOS (parse b).sellerGstin) = true
    · rw [if_pos ht]
      by_cases hm : parsedKey (parse b) ∈ keys
      · rw [if_pos hm]; exact ih st keys hk
      · rw [if_neg hm]
        apply ih
        simp [List.nodup_append, hk, hm]
    · rw [if_neg ht]; exact ih st keys hk

/-- C1: starting from a store with pairwise distinct composite keys,
running ingestion twice over the same input equals running it once (the
second run's inserts are all no-ops, decided by the key lookup before the
insert), and the resulting store still has at most one Document row per
composite (SellerGstin, DocNo) key. -/
theorem c1_idempotent (parse : String → Parsed) (lines : List String) (st : Store)
    (h : (st.summaryRows.map summaryKey).Nodup) :
    loggerProcess parse lines (loggerProcess parse lines st) = loggerProcess parse lines st ∧
    ((loggerProcess parse lines st).summaryRows.map summaryKey).Nodup := by
  unfold loggerProcess
  have htrack :
      (loggerGo parse ((splitInvoicesLines lines).map (String.intercalate "\n"))
          (st, st.summaryRows.map summaryKey)).2 =
        (loggerGo parse ((splitInvoicesLines lines).map (String.intercalate "\n"))
            (st, st.summaryRows.map summaryKey)).1.summaryRows.map summaryKey :=
    loggerGo_track parse _ st _ rfl
  have hnd :
      (loggerGo parse ((splitInvoicesLines lines).map (String.intercalate "\n"))
          (st, st.summaryRows.map summaryKey)).2.Nodup :=
    loggerGo_nodup parse _ st _ h
  constructor
  · rw [← htrack]
    have hnoop :
        loggerGo parse ((splitInvoicesLines lines).map (String.intercalate "\n"))
            ((loggerGo parse ((splitInvoicesLines lines).map (String.intercalate "\n"))
                (st, st.summaryRows.map summaryKey)).1,
              (loggerGo parse ((splitInvoicesLines lines).map (String.intercalate "\n"))
                  (st, st.summaryRows.map summaryKey)).2) =
          ((loggerGo parse ((splitInvoicesLines lines).map (String.intercalate "\n"))
              (st, st.summaryRows.map summaryKey)).1,
            (loggerGo parse ((splitInvoicesLines lines).map (String.intercalate "\n"))
                (st, st.summaryRows.map summaryKey)).2) := by
      apply loggerGo_noop
      intro b hb htr
      exact loggerGo_covered parse _ st _ b hb htr
    rw [hnoop]
  · rw [← htrack]
    exact hnd

/-- C1 witness: one block on an empty store. -/
theorem c1_witness :
    ((⟨[], [], []⟩ : Store).summaryRows.map summaryKey).Nodup ∧
    loggerProcess parseW ["VALIDATION: ok"]
        (loggerProcess parseW ["VALIDATION: ok"] ⟨[], [], []⟩) =
      loggerProcess parseW ["VALIDATION: ok"] ⟨[], [], []⟩ :=
  ⟨by simp, (c1_idempotent parseW ["VALIDATION: ok"] ⟨[], [], []⟩ (by simp)).1⟩

/-! ### C9: inserted rows carry the composite key -/

/-- Decomposition of one ingestion run: the store grows by a suffix of new
rows; every new summary row is truthy in both key fields, and every new
item or QR row shares its DocNo with a new summary row. The hypothesis
records the source fact that `_parse_invoice` seeds the summary's DocNo
from the QR dict (`summary.update(qr_meta)`, never reassigned). -/
theorem loggerGo_new_rows (parse : String → Parsed)
    (hq : ∀ b q, (parse b).qrMeta = some q → q.docNo = (parse b).docNo) :
    ∀ (bs : List String) (st : Store) (keys : List String),
      ∃ ns ni nq,
        (loggerGo parse bs (st, keys)).1.summaryRows = st.summaryRows ++ ns ∧
        (loggerGo parse bs (st, keys)).1.itemRows = st.itemRows ++ ni ∧
        (loggerGo parse bs (st, keys)).1.qrRows = st.qrRows ++ nq ∧
        (∀ r ∈ ns, truthyOS r.docNo = true ∧ truthyOS r.sellerGstin = true) ∧
        (∀ ir ∈ ni, ∃ r, r ∈ ns ∧ ir.docNo = r.docNo) ∧
        (∀ qr ∈ nq, ∃ r, r ∈ ns ∧ qr.docNo = r.docNo) := by
  intro bs
  induction bs with
  | nil =>
    intro st keys
    exact ⟨[], [], [], by simp [loggerGo], by simp [loggerGo], by simp [loggerGo],
      by intro r hr; exact absurd hr (List.not_mem_nil r),
      by intro ir hir; exact absurd hir (List.not_mem_nil ir),
      by intro qr hqr; exact absurd hqr (List.not_mem_nil qr)⟩
  | cons b bs ih =>
    intro st keys
    simp only [loggerGo]
    by_cases ht : (truthyOS (parse b).docNo && truthyOS (parse b).sellerGstin) = true
    · rw [if_pos ht]
      by_cases hm : parsedKey (parse b) ∈ keys
      · rw [if_pos hm]; exact ih st keys
      · rw [if_neg hm]
        obtain ⟨ns, ni, nq, hs, hi, hqr, hns, hni, hnq⟩ :=
          ih (appendBlock st (parse b)) (keys ++ [parsedKey (parse b)])
        refine ⟨⟨(parse b).docNo, (parse b).sellerGstin, (parse b).summaryRest⟩ :: ns,
          (parse b).items.map (fun cells => ⟨(parse b).docNo, cells⟩) ++ ni,
          (parse b).qrMeta.toList ++ nq, ?_, ?_, ?_, ?_, ?_, ?_⟩
        · rw [hs]; simp [appendBlock]
        · rw [hi]; simp [appendBlock]
        · rw [hqr]; simp [appendBlock]
        · intro r hr
          rcases List.mem_cons.mp hr with rfl | hr2
          · have hb := Bool.and_eq_true_iff.mp ht
            exact ⟨hb.1, hb.2⟩
          · exact hns r hr2
        · intro ir hir
          rcases List.mem_append.mp hir with hnew | hold
          · obtain ⟨cells, _, hcell⟩ := List.mem_map.mp hnew
            refine ⟨⟨(parse b).docNo, (parse b).sellerGstin, (parse b).summaryRest⟩,
              List.mem_cons_self _ _, ?_⟩
            rw [← hcell]
          · obtain ⟨r, hr, hdn⟩ := hni ir hold
            exact ⟨r, List.mem_cons_of_mem _ hr, hdn⟩
        · intro qr hqrm
          rcases List.mem_append.mp hqrm with hnew | hold
          · have hq2 : (parse b).qrMeta = some qr := by
              cases hqm : (parse b).qrMeta with
              | none => rw [hqm] at hnew; exact absurd hnew (List.not_mem_nil qr)
              | some q0 =>
                rw [hqm] at hnew
                rcases List.mem_cons.mp hnew with rfl | habs
                · rfl
                · exact absurd habs (List.not_mem_nil qr)
            refine ⟨⟨(parse b).docNo, (parse b).sellerGstin, (parse b).summaryRest⟩,
              List.mem_cons_self _ _, ?_⟩
            exact hq b qr hq2
          · obtain ⟨r, hr, hdn⟩ := hnq qr hold
            exact ⟨r, List.mem_cons_of_mem _ hr, hdn⟩
    · rw [if_neg ht]; exact ih st keys

/-- C9: every Document row inserted by a run has truthy (hence non-null)
DocNo and SellerGstin, and every inserted LineItem and PayloadMeta row
shares its DocNo with such a Document row; blocks whose extraction lacks
either key field are skipped whole and contribute nothing. -/
theorem c9_inserted_rows (parse : String → Parsed) (lines : List String) (st : Store)
    (hq : ∀ b q, (parse b).qrMeta = some q → q.docNo = (parse b).docNo) :
    (∀ r ∈ (loggerProcess parse lines st).summaryRows,
        r ∈ st.summaryRows ∨ (truthyOS r.docNo = true ∧ truthyOS r.sellerGstin = true)) ∧
    (∀ ir ∈ (loggerProcess parse lines st).itemRows,
        ir ∈ st.itemRows ∨
          ∃ r, r ∈ (loggerProcess parse lines st).summaryRows ∧
            truthyOS r.docNo = true ∧ truthyOS r.sellerGstin = true ∧ ir.docNo = r.docNo) ∧
    (∀ qr ∈ (loggerProcess parse lines st).qrRows,
        qr ∈ st.qrRows ∨
          ∃ r, r ∈ (loggerProcess parse lines st).summaryRows ∧
            truthyOS r.docNo = true ∧ truthyOS r.sellerGstin = true ∧ qr.docNo = r.docNo) := by
  unfold loggerProcess
  obtain ⟨ns, ni, nq, hs, hi, hqr, hns, hni, hnq⟩ :=
    loggerGo_new_rows parse hq ((splitInvoicesLines lines).map (String.intercalate "\n")) st
      (st.summaryRows.map summaryKey)
  refine ⟨?_, ?_, ?_⟩
  · intro r hr
    rw [hs] at hr
    rcases List.mem_append.mp hr with hold | hnew
    · exact Or.inl hold
    · exact Or.inr (hns r hnew)
  · intro ir hir
    rw [hi] at hir
    rcases List.mem_append.mp hir with hold | hnew
    · exact Or.inl hold
    · obtain ⟨r, hrn, hdn⟩ := hni ir hnew
      refine Or.inr ⟨r, ?_, (hns r hrn).1, (hns r hrn).2, hdn⟩
      rw [hs]
      exact List.mem_append_right _ hrn
  · intro qr hqm
    rw [hqr] at hqm
    rcases List.mem_append.mp hqm with hold | hnew
    · exact Or.inl hold
    · obtain ⟨r, hrn, hdn⟩ := hnq qr hnew
      refine Or.inr ⟨r, ?_, (hns r hrn).1, (hns r hrn).2, hdn⟩
      rw [hs]
      exact List.mem_append_right _ hrn

/-- C9 witness: the single inserted block on an empty store satisfies the
alternative. -/
theorem c9_witness :
    (⟨some "D1", some "S1", []⟩ : SummaryRowS) ∈ (⟨[], [], []⟩ : Store).summaryRows ∨
      (truthyOS (some "D1") = true ∧ truthyOS (some "S1") = true) :=
  (c9_inserted_rows parseW ["VALIDATION: ok"] ⟨[], [], []⟩
    (by intro b q h; simp [parseW] at h)).1 ⟨some "D1", some "S1", []⟩ (by decide)

/-! ### C2 and C3: reconciliation -/

/-- Keys of the running-total dict after one update. -/
theorem keys_updateTot :
    ∀ (lt : List (Value × ℚ)) (k : Value) (x : ℚ),
      (updateTot lt k x).map Prod.fst =
        if k ∈ lt.map Prod.fst then lt.map Prod.fst else lt.map Prod.fst ++ [k] := by
  intro lt
  induction lt with
  | nil => intro k x; simp [updateTot]
  | cons kv rest ih =>
    intro k x
    obtain ⟨k1, v1⟩ := kv
    by_cases hk : k1 = k
    · subst hk
      simp [updateTot]
    · simp only [updateTot, hk, if_false, List.map_cons]
      rw [ih]
      by_cases hm : k ∈ rest.map Prod.fst
      · simp [hm, Ne.symm hk]
      · simp [hm, Ne.symm hk]

/-- The running-total dict keeps its keys distinct. -/
theorem nodup_keys_updateTot (lt : List (Value × ℚ)) (k : Value) (x : ℚ)
    (h : (lt.map Prod.fst).Nodup) : ((updateTot lt k x).map Prod.fst).Nodup := by
  rw [keys_updateTot]
  by_cases hm : k ∈ lt.map Prod.fst
  · rw [if_pos hm]; exact h
  · rw [if_neg hm]
    simp [List.nodup_append, h, hm]

/-- The taxable-totals dict built by Step 1 has pairwise distinct keys. -/
theorem nodup_keys_lineTotals (items : List LIRow) :
    ((lineTotalsOf items).map Prod.fst).Nodup := by
  unfold lineTotalsOf
  have haux :
      ∀ (is0 : List LIRow) (lt : List (Value × ℚ)), (lt.map Prod.fst).Nodup →
        ((is0.foldl
            (fun lt r => if pyTruthy r.docNo then updateTot lt r.docNo (contrib r) else lt)
            lt).map Prod.fst).Nodup := by
    intro is0
    induction is0 with
    | nil => intro lt h; exact h
    | cons r rest ih =>
      intro lt h
      simp only [List.foldl_cons]
      by_cases ht : pyTruthy r.docNo
      · rw [if_pos ht]
        exact ih _ (nodup_keys_updateTot lt r.docNo (contrib r) h)
      · rw [if_neg ht]
        exact ih lt h
  exact haux items [] (by simp)

/-- Lookup fails exactly on absent keys. -/
theorem lookupA_eq_none_iff {α : Type} :
    ∀ (l : List (Value × α)) (d : Value), lookupA l d = none ↔ d ∉ l.map Prod.fst := by
  intro l
  induction l with
  | nil => intro d; simp [lookupA]
  | cons kv rest ih =>
    intro d
    by_cases hk : kv.1 = d
    · simp [lookupA, hk]
    · simp [lookupA, hk, ih, Ne.symm hk]

/-- A Step 4 row always carries the key it was made for. -/
theorem reviewStep_docNo (gl : List (Value × GstInfo)) (sl : List (Value × Option ℚ))
    (d : Value) (t : ℚ) (r : ReviewRow) (h : reviewStep gl sl (d, t) = some r) : r.docNo = d := by
  unfold reviewStep at h
  dsimp only at h
  split at h
  · exact absurd h (by simp)
  · split at h
    · injection h with h2
      rw [← h2]
      rfl
    · exact absurd h (by simp)

/-- No Step 4 row is produced for a key absent from the totals dict. -/
theorem filter_reviews_nil (gl : List (Value × GstInfo)) (sl : List (Value × Option ℚ)) :
    ∀ (lt : List (Value × ℚ)) (d : Value), d ∉ lt.map Prod.fst →
      (lt.filterMap (reviewStep gl sl)).filter (fun r => decide (r.docNo = d)) = [] := by
  intro lt
  induction lt with
  | nil => intro d _; rfl
  | cons kv rest ih =>
    intro d hd
    obtain ⟨k, t⟩ := kv
    have hkd : k ≠ d := by
      intro hkd; exact hd (by simp [hkd])
    have hdr : d ∉ rest.map Prod.fst := by
      intro hdr; exact hd (by simp [hdr])
    cases h0 : reviewStep gl sl (k, t) with
    | none =>
      rw [List.filterMap_cons_none h0]
      exact ih d hdr
    | some r =>
      rw [List.filterMap_cons_some h0]
      have hr : r.docNo = k := reviewStep_docNo gl sl k t r h0
      rw [List.filter_cons_of_neg]
      · exact ih d hdr
      · simp [hr, hkd]

/-- The Review_Report rows for a given key are exactly the outcome of the
Step 4 decision at that key's taxable total. -/
theorem reviews_filter_char (gl : List (Value × GstInfo)) (sl : List (Value × Option ℚ)) :
    ∀ (lt : List (Value × ℚ)), (lt.map Prod.fst).Nodup → ∀ d : Value,
      (lt.filterMap (reviewStep gl sl)).filter (fun r => decide (r.docNo = d)) =
        (match lookupA lt d with
         | some t => (reviewStep gl sl (d, t)).toList
         | none => []) := by
  intro lt
  induction lt with
  | nil => intro _ d; rfl
  | cons kv rest ih =>
    intro hnd d
    obtain ⟨k, t⟩ := kv
    have hnd2 := List.nodup_cons.mp (show (k :: rest.map Prod.fst).Nodup from hnd)
    have hknd : k ∉ rest.map Prod.fst := hnd2.1
    have hrest : (rest.map Prod.fst).Nodup := hnd2.2
    by_cases hkd : k = d
    · subst hkd
      have hlk : lookupA ((k, t) :: rest) k = some t := by simp [lookupA]
      rw [hlk]
      cases h0 : reviewStep gl sl (k, t) with
      | none =>
        rw [List.filterMap_cons_none h0]
        rw [filter_reviews_nil gl sl rest k hknd]
        simp [h0]
      | some r =>
        rw [List.filterMap_cons_some h0]
        have hr : r.docNo = k := reviewStep_docNo gl sl k t r h0
        rw [List.filter_cons_of_pos]
        · rw [filter_reviews_nil gl sl rest k hknd]
          simp [h0]
        · simp [hr]
    · have hlk : lookupA ((k, t) :: rest) d = lookupA rest d := by simp [lookupA, hkd]
      rw [hlk]
      cases h0 : reviewStep gl sl (k, t) with
      | none =>
        rw [List.filterMap_cons_none h0]
        exact ih hrest d
      | some r =>
        rw [List.filterMap_cons_some h0]
        have hr : r.docNo = k := reviewStep_docNo gl sl k t r h0
        rw [List.filter_cons_of_neg]
        · exact ih hrest d
        · simp [hr, hkd]

/-- C2 amended: for every store state and every document key, the
Review_Report carries exactly one row for the key when the key has line
items (Step 1 total), a GST entry with both halves, and a coerced
independent total — that row's ExpectedTotal is
Taxable + Taxable*(CGST/100) + Taxable*(SGST/100), its Diff is
ExpectedTotal - IndependentTotal rounded to 2 decimals, and its flag is
pass iff |Diff| < 0.01 — and no row otherwise; the spec's two numeric
scenarios evaluate as claimed. -/
theorem c2_amended :
    (∀ (items : List LIRow) (gst : List GstRowR) (sums : List SumRowR) (d : Value),
        (reviewsOf items gst sums).filter (fun r => decide (r.docNo = d)) =
          (match reviewKeyData items gst sums d with
           | some (t, g, c, s, tot) =>
             [{ docNo := d, taxable := round2 t, gst := g,
                cgst := round2 (t * (c / 100)), sgst := round2 (t * (s / 100)),
                expected := round2 (t + t * (c / 100) + t * (s / 100)),
                qrTotal := tot,
                diff := round2 (t + t * (c / 100) + t * (s / 100) - tot),
                ok := if |round2 (t + t * (c / 100) + t * (s / 100) - tot)| < 1 / 100
                      then "✅" else "❌" }]
           | none => [])) ∧
    reviewsOf [itemD1] [gstD1] [sumD1a] = [mkReviewRow (vStr "D1") 1000 (some 18) 9 9 1180] ∧
    mkReviewRow (vStr "D1") 1000 (some 18) 9 9 1180 =
      ⟨vStr "D1", 1000, some 18, 90, 90, 1180, 1180, 0, "✅"⟩ ∧
    reviewsOf [itemD1] [gstD1] [sumD1b] = [mkReviewRow (vStr "D1") 1000 (some 18) 9 9 1175] ∧
    mkReviewRow (vStr "D1") 1000 (some 18) 9 9 1175 =
      ⟨vStr "D1", 1000, some 18, 90, 90, 1180, 1175, 5, "❌"⟩ := by
  refine ⟨?_, rfl, ?_, rfl, ?_⟩
  · intro items gst sums d
    unfold reviewsOf reviewKeyData
    rw [reviews_filter_char (gstLookupOf gst) (sumLookupOf sums) (lineTotalsOf items)
      (nodup_keys_lineTotals items) d]
    cases lookupA (lineTotalsOf items) d with
    | none => rfl
    | some t =>
      unfold reviewStep
      dsimp only
      cases lookupA (gstLookupOf gst) d with
      | none => rfl
      | some gi =>
        dsimp only
        cases hc : gi.cgst with
        | none => cases hs3 : gi.sgst <;> cases hb : (lookupA (sumLookupOf sums) d).bind id <;> rfl
        | some c =>
          cases hs3 : gi.sgst with
          | none => cases hb : (lookupA (sumLookupOf sums) d).bind id <;> rfl
          | some s =>
            cases hb : (lookupA (sumLookupOf sums) d).bind id with
            | none => rfl
            | some tot => rfl
  · simp only [mkReviewRow, ReviewRow.mk.injEq]
    norm_num [round2, roundHalfEven]
  · simp only [mkReviewRow, ReviewRow.mk.injEq]
    norm_num [round2, roundHalfEven]

/-- C2 counterexample: a document with a resolved rate (CGST and SGST both
present) and an independent total but no Line_Items row gets no
ReviewRecord, because Step 4 iterates the Step 1 totals only. -/
theorem c2_counterexample :
    reviewsOf [] [gstD1] [sumD1a] = [] ∧
    lookupA (gstLookupOf [gstD1]) (vStr "D1") = some ⟨some 18, some 9, some 9, vNone⟩ ∧
    (lookupA (sumLookupOf [sumD1a]) (vStr "D1")).bind id = some 1180 :=
  ⟨rfl, rfl, rfl⟩

/-- C3 amended: an ErrorRecord is emitted for a line row (with truthy
DocNo) exactly when NOT both values are present and equal after rounding
to two decimals — in particular a row with either value absent or
unparseable IS flagged; the spec's 300.00 and 299.50 examples behave as
stated, with computed amount 300. -/
theorem c3_amended :
    (∀ items : List LIRow,
        errorsOf items =
          (items.filter fun r => pyTruthy r.docNo && !(lineItemOk r)).map mkErrRow) ∧
    errorsOf [itemOk300] = [] ∧
    errorsOf [itemBad2995] = [mkErrRow itemBad2995] ∧
    computedOf itemBad2995 = some 300 := by
  have hok : lineItemOk itemOk300 = true := by
    simp only [lineItemOk, computedOf, amountFOf, pyFloatV, itemOk300]
    norm_num [round2, roundHalfEven]
  have hbad : lineItemOk itemBad2995 = false := by
    simp only [lineItemOk, computedOf, amountFOf, pyFloatV, itemBad2995]
    norm_num [round2, roundHalfEven]
  have haux :
      ∀ {α β : Type} (p : α → Bool) (g : α → β) (l : List α),
        (l.filterMap fun a => if p a then some (g a) else none) = (l.filter p).map g := by
    intro α β p g l
    induction l with
    | nil => rfl
    | cons a l ih =>
      by_cases hp : p a
      · simp [List.filterMap_cons, List.filter_cons, hp, ih]
      · simp [List.filterMap_cons, List.filter_cons, hp, ih]
  refine ⟨?_, ?_, ?_, ?_⟩
  · intro items
    have hfun :
        (fun r : LIRow =>
            if pyTruthy r.docNo then (if lineItemOk r then none else some (mkErrRow r))
            else none) =
          (fun r : LIRow =>
            if (pyTruthy r.docNo && !(lineItemOk r)) then some (mkErrRow r) else none) := by
      funext r
      cases hdt : pyTruthy r.docNo <;> cases hlk : lineItemOk r <;> simp [hdt, hlk]
    unfold errorsOf
    rw [hfun]
    exact haux _ _ items
  · have ht : pyTruthy itemOk300.docNo = true := rfl
    simp [errorsOf, List.filterMap_cons, ht, hok]
  · have ht : pyTruthy itemBad2995.docNo = true := rfl
    simp [errorsOf, List.filterMap_cons, ht, hbad]
  · simp only [computedOf, pyFloatV, itemBad2995]
    norm_num

/-- C3 counterexample: a line row with an absent Amount cell DOES produce
an error row (the match flag is ❌ whenever the both-present-and-equal
condition fails), against the claim that an absent value yields none. -/
theorem c3_counterexample :
    amountFOf itemNoAmt = none ∧
    errorsOf [itemNoAmt] = [mkErrRow itemNoAmt] ∧
    errorsOf [itemNoAmt] ≠ [] ∧
    computedOf itemNoAmt = some 300 := by
  refine ⟨rfl, rfl, ?_, ?_⟩
  · show [mkErrRow itemNoAmt] ≠ ([] : List ErrRow)
    simp
  · simp only [computedOf, pyFloatV, itemNoAmt]
    norm_num
